import Mathlib

/-!
Verification development for the PBL6 video-captioning platform.

The frontend (api client, auth api, upload section, history component) is
embedded from the TypeScript source.  The backend upload pipeline, caption
provider selection and history store are not shipped in the repository
snapshot (only their documentation and schemas are), so those parts are
modelled from the specification, as marked on each definition.
-/

/-- Browser local storage as seen by the client code: the `token` and `user`
keys used by `api-client.ts` and `lib/api/auth.ts`. -/
structure LocalStorage where
  token : Option String
  user : Option String
deriving Repr, DecidableEq

/-- `removeAuthToken` from `frontend/lib/api-client.ts`: removes both the
`token` and `user` keys from local storage. -/
def removeAuthToken (_s : LocalStorage) : LocalStorage :=
  { token := none, user := none }

/-- `authApi.logout` from `lib/api/auth.ts`: posts to `/api/auth/logout` and,
in a `finally` block, unconditionally calls `removeAuthToken`.  The server
call outcome is passed in explicitly; the returned pair is the storage after
the `finally` cleanup and the propagated outcome. -/
def authLogout (s : LocalStorage) (serverResult : Except String Unit) :
    LocalStorage × Except String Unit :=
  (removeAuthToken s, serverResult)

/-- The data of an axios error response body (`ApiError` in `lib/types.ts`):
`detail`, optional `code`, optional `field`. -/
structure ApiErrorBody where
  detail : Option String
  code : Option String
  errField : Option String
deriving Repr, DecidableEq

/-- The part of an `AxiosError` response the interceptor reads: HTTP status
and parsed body. -/
structure AxiosResponse where
  status : Nat
  body : ApiErrorBody
deriving Repr, DecidableEq

/-- The part of an `AxiosError` the interceptor reads: the optional response
and the transport-level `message` string. -/
structure AxiosError where
  response : Option AxiosResponse
  message : String
deriving Repr, DecidableEq

/-- The structured error object the response interceptor rejects with. -/
structure StructuredError where
  message : String
  status : Option Nat
  code : Option String
  errField : Option String
deriving Repr, DecidableEq

/-- JavaScript `a || b` restricted to strings: an absent or empty string is
falsy and falls through to the alternative. -/
def jsOrString (a : Option String) (b : String) : String :=
  match a with
  | some s => if s = "" then b else s
  | none => b

/-- The message extraction of the response interceptor in `api-client.ts`:
`error.response?.data?.detail || error.message || "An unexpected error
occurred"`. -/
def extractErrorMessage (e : AxiosError) : String :=
  jsOrString (e.response.bind (fun r => r.body.detail))
    (jsOrString (some e.message) "An unexpected error occurred")

/-- Whether the axios error carries an HTTP 401 response
(`error.response?.status === 401`). -/
def is401 (e : AxiosError) : Bool :=
  match e.response with
  | some r => r.status == 401
  | none => false

/-- Substring test on character lists: JavaScript `hay.includes needle`. -/
def charsContain (hay needle : List Char) : Bool :=
  needle.isPrefixOf hay ||
    match hay with
    | [] => false
    | _ :: t => charsContain t needle

/-- `window.location.pathname.includes "/login"` from the interceptor's
redirect guard. -/
def pathIncludesLogin (path : String) : Bool :=
  charsContain path.toList ("/login".toList)

/-- The observable effect of one run of the response interceptor's error
branch: local storage afterwards, the navigation target assigned to
`window.location.href` (if any), and the structured rejection. -/
structure InterceptorEffect where
  storage : LocalStorage
  redirect : Option String
  rejected : StructuredError
deriving Repr, DecidableEq

/-- The response interceptor error handler from `frontend/lib/api-client.ts`:
on a 401 response it removes `token` and `user` from local storage and, when
the current path neither contains `/login` nor equals `/`, sets
`window.location.href` to `/`; it always rejects with the structured error
built from the extracted message, status, code and field. -/
def handleResponseError (s : LocalStorage) (pathname : String) (e : AxiosError) :
    InterceptorEffect :=
  let s1 := if is401 e then removeAuthToken s else s
  let redirect :=
    if is401 e ∧ ¬ pathIncludesLogin pathname ∧ pathname ≠ "/" then
      some "/"
    else
      none
  { storage := s1
    redirect := redirect
    rejected :=
      { message := extractErrorMessage e
        status := (e.response.map (fun r => r.status))
        code := e.response.bind (fun r => r.body.code)
        errField := e.response.bind (fun r => r.body.errField) } }

/-- `matchExtTail rev k` scans the reversed filename: it consumes characters
that are neither `/` nor `.` (counted by `k`) and succeeds when it reaches a
`.` with at least one character consumed, returning the reversed remainder.
This is exactly where the anchored regex `\.[^/.]+$` matches. -/
def matchExtTail : List Char → Nat → Option (List Char)
  | [], _ => none
  | c :: rest, k =>
    if c = '/' then none
    else if c = '.' then (if k = 0 then none else some rest)
    else matchExtTail rest (k + 1)

/-- `name.replace(/\.[^/.]+$/, "")` from `UploadSection.handleUpload`: strip
a trailing `.ext` segment (dot followed by one or more characters other than
`/` and `.`) when present, otherwise return the name unchanged. -/
def stripExtension (name : String) : String :=
  match matchExtTail name.toList.reverse 0 with
  | some restRev => String.mk restRev.reverse
  | none => name

/-- The title `UploadSection.handleUpload` sends with the upload:
`selectedFile.name.replace(/\.[^/.]+$/, "")`. -/
def uploadTitle (filename : String) : String :=
  stripExtension filename

/-- Modelled from the spec: the Caption Provider variants (section 4.1); the
backend `caption_service.py` is not in the repository snapshot. -/
inductive ProviderVariant
  | real
  | mock
deriving Repr, DecidableEq

/-- Modelled from the spec: availability of the three required model
artifacts (trained checkpoint, feature-extractor weights, tokenizer bundle)
and whether loading them raises no error. -/
structure ModelArtifacts where
  checkpointPresent : Bool
  s3dPresent : Bool
  bertPresent : Bool
  loadSucceeds : Bool
deriving Repr, DecidableEq

/-- Modelled from the spec: the cause logged when the Real variant cannot be
used — the first missing artifact, or a load error (section 4.1 step 3 and
the documented fallback log lines). -/
def loadFailureCause (a : ModelArtifacts) : Option String :=
  if a.checkpointPresent = false then some "Checkpoint not found"
  else if a.s3dPresent = false then some "S3D weights not found"
  else if a.bertPresent = false then some "Tokenizer bundle not found"
  else if a.loadSucceeds = false then some "Error while loading model"
  else none

/-- Modelled from the spec: startup variant selection (section 4.1): a
forced-mock flag selects Mock; otherwise Real when all artifacts are present
and load without error; otherwise Mock with a logged cause.  Selection is a
total function — startup never hard-fails. -/
def selectProvider (useMockFlag : Bool) (a : ModelArtifacts) :
    ProviderVariant × Option String :=
  if useMockFlag then (.mock, none)
  else
    match loadFailureCause a with
    | none => (.real, none)
    | some c => (.mock, some ("Failed to load UniVL: " ++ c))

/-- Modelled from the spec: the fixed, non-empty candidate list of
placeholder captions of the Mock Caption Provider (section 4.1; the
documentation shows captions of this shape). -/
def mockCaptions : List String :=
  [ "A person is explaining something in front of the camera."
  , "A man is playing guitar on the stage."
  , "People are walking together in a park."
  , "Someone is preparing food in a kitchen."
  , "A group of friends is talking and laughing." ]

/-- Modelled from the spec: one Mock Caption Provider call — a
pseudo-random uniform pick from the fixed candidate list, here driven by an
explicit seed.  A total function: it never throws. -/
def mockGenerate (seed : Nat) : String :=
  mockCaptions.getD (seed % mockCaptions.length) ""

/-- A persisted `UploadRecord` row (the `videos` table of the backend
schema), reduced to the fields the verified contracts mention. -/
structure VideoRec where
  id : Nat
  userId : Nat
  fileId : Nat
  caption : String
deriving Repr, DecidableEq

/-- Backend state: stored file identifiers and the `videos` rows, newest
first (each upload prepends its row). -/
structure ServerState where
  storage : List Nat
  db : List VideoRec
deriving Repr, DecidableEq

/-- Upload-pipeline configuration: allowed extensions and maximum size. -/
structure PipelineConfig where
  allowedExts : List String
  maxSize : Nat
deriving Repr, DecidableEq

/-- One upload request's validated input fields. -/
structure UploadInput where
  userId : Nat
  size : Nat
  ext : String
deriving Repr, DecidableEq

/-- The error taxonomy of the spec (section 7), reduced to the outcomes the
verified contracts distinguish. -/
inductive PipelineError
  | validationError
  | captionGenerationError
  | notFoundError
deriving Repr, DecidableEq

/-- Modelled from the spec: step 1 of the Upload Pipeline (section 4.2) —
extension must be in the allow-list and the payload within the size cap. -/
def validateUpload (cfg : PipelineConfig) (inp : UploadInput) : Bool :=
  cfg.allowedExts.contains inp.ext && inp.size ≤ cfg.maxSize

/-- Modelled from the spec: the Upload Pipeline (section 4.2 steps 1-6); the
backend router and `video_service.py` are not in the repository snapshot.
Validate; store the payload under a fresh `fileId`; invoke the Caption
Provider (its outcome is passed in as `capRes`); on a failed or empty
caption delete the just-stored file, create no row and surface the error;
otherwise prepend the new row and answer it. -/
def uploadPipeline (cfg : PipelineConfig) (st : ServerState) (inp : UploadInput)
    (fileId : Nat) (capRes : Except String String) :
    ServerState × Except PipelineError VideoRec :=
  if validateUpload cfg inp then
    let storage1 := fileId :: st.storage
    match capRes with
    | .error _ =>
        (⟨storage1.erase fileId, st.db⟩, .error .captionGenerationError)
    | .ok cap =>
        if cap = "" then
          (⟨storage1.erase fileId, st.db⟩, .error .captionGenerationError)
        else
          let r : VideoRec :=
            { id := fileId, userId := inp.userId, fileId := fileId, caption := cap }
          (⟨storage1, r :: st.db⟩, .ok r)
  else (st, .error .validationError)

/-- Modelled from the spec: the History Store owner filter — the records
owned by `u`, in stored (newest-first) order. -/
def userHistory (db : List VideoRec) (u : Nat) : List VideoRec :=
  db.filter (fun r => r.userId == u)

/-- Modelled from the spec: `List(user, page, limit)` of the History Store
(section 4.3): the 1-based page slice of the user's records, newest first,
together with `total` = count of all the user's records. -/
def listHistory (db : List VideoRec) (u : Nat) (page limit : Nat) :
    List VideoRec × Nat :=
  let mine := userHistory db u
  (((mine.drop ((page - 1) * limit)).take limit), mine.length)

/-- Modelled from the spec: `Delete(user, record_id)` of the History Store
(section 4.3): remove the record and its stored file when it exists and is
owned by `user`; otherwise fail with `NotFoundError` and change nothing. -/
def deleteVideo (st : ServerState) (u vid : Nat) :
    ServerState × Except PipelineError Unit :=
  match st.db.find? (fun r => r.id == vid && r.userId == u) with
  | none => (st, .error .notFoundError)
  | some r =>
      (⟨st.storage.erase r.fileId, st.db.filter (fun x => x.id != vid)⟩, .ok ())

/-- Modelled from the spec: `ClearAll(user)` of the History Store (section
4.3): remove every record owned by `user` (a no-op when there are none). -/
def clearAll (st : ServerState) (u : Nat) :
    ServerState × Except PipelineError Unit :=
  (⟨st.storage.filter (fun f => !(st.db.any (fun r => r.userId == u && r.fileId == f)))
   , st.db.filter (fun r => r.userId != u)⟩, .ok ())

/-- The client page size of `VideoHistory` (`const limit = 10`). -/
def clientLimit : Nat := 10

/-- The client page count of `VideoHistory`:
`Math.ceil(totalVideos / limit)` with `limit = 10`. -/
def clientTotalPages (totalVideos : Nat) : Nat :=
  (totalVideos + clientLimit - 1) / clientLimit

/-- The Previous button of `VideoHistory`: `setPage (p => Math.max(1, p - 1))`. -/
def prevPage (p : Nat) : Nat := max 1 (p - 1)

/-- The Next button of `VideoHistory`:
`setPage (p => Math.min(totalPages, p + 1))`. -/
def nextPage (totalPages p : Nat) : Nat := min totalPages (p + 1)

/-- Helper: the ceiling division `(N + L - 1) / L` covers `N`. -/
theorem le_ceil_mul (N L : Nat) (hL : 0 < L) : N ≤ ((N + L - 1) / L) * L := by
  rcases Nat.eq_zero_or_pos N with h0 | hN
  · subst h0; exact Nat.zero_le _
  · have h1 : N + L - 1 = (N - 1) + L := by omega
    rw [h1, Nat.add_div_right _ hL]
    have h2 := Nat.div_add_mod (N - 1) L
    have h3 : (N - 1) % L < L := Nat.mod_lt _ hL
    calc N = L * ((N - 1) / L) + (N - 1) % L + 1 := by omega
      _ ≤ L * ((N - 1) / L) + L := by omega
      _ = ((N - 1) / L + 1) * L := by ring

/-- Helper: concatenating the `n` successive `L`-sized chunks of a list
recovers the list, as soon as `n * L` covers its length. -/
theorem flatten_chunks {α : Type} (L : Nat) :
    ∀ (n : Nat) (l : List α), l.length ≤ n * L →
      ((List.range n).map (fun i => (l.drop (i * L)).take L)).flatten = l := by
  intro n
  induction n with
  | zero =>
    intro l h
    simp only [Nat.zero_mul, Nat.le_zero, List.length_eq_zero] at h
    simp [h]
  | succ n ih =>
    intro l h
    rw [List.range_succ_eq_map]
    simp only [List.map_cons, List.map_map, List.flatten_cons]
    have hdrop : ∀ i : Nat, l.drop (Nat.succ i * L) = (l.drop L).drop (i * L) := by
      intro i
      rw [List.drop_drop, Nat.succ_mul, Nat.add_comm]
    have hrw : (List.map ((fun i => (l.drop (i * L)).take L) ∘ Nat.succ) (List.range n))
        = List.map (fun i => ((l.drop L).drop (i * L)).take L) (List.range n) := by
      apply List.map_congr_left
      intro i _
      simp only [Function.comp_apply, hdrop i]
    have hlen : (l.drop L).length ≤ n * L := by
      rw [Nat.succ_mul] at h
      rw [List.length_drop]
      omega
    rw [hrw, ih (l.drop L) hlen]
    rw [Nat.zero_mul, List.drop_zero]
    exact List.take_append_drop L l

/-- C9: every call to `authApi.logout` removes the stored auth token and the
cached user from local storage — also when the server-side logout request
rejects, because the cleanup runs unconditionally in a `finally` block — and
the server outcome is propagated unchanged. -/
theorem logout_always_clears_session (s : LocalStorage) (r : Except String Unit) :
    (authLogout s r).1.token = none ∧ (authLogout s r).1.user = none ∧
    (authLogout s r).2 = r :=
  ⟨rfl, rfl, rfl⟩

/-- C6: the Mock Caption Provider's candidate list is non-empty and fixed,
and every call — hence any sequence of 50 calls — returns a non-empty string
drawn from that list; `mockGenerate` is total, so it never throws. -/
theorem mock_caption_in_fixed_candidates (seed : Nat) :
    mockCaptions ≠ [] ∧
    mockGenerate seed ∈ mockCaptions ∧
    mockGenerate seed ≠ "" := by
  have hlt : seed % mockCaptions.length < mockCaptions.length :=
    Nat.mod_lt _ (by decide)
  have hmem : mockGenerate seed ∈ mockCaptions := by
    rw [mockGenerate, List.getD_eq_getElem _ _ hlt]
    exact List.getElem_mem hlt
  have hall : ∀ x ∈ mockCaptions, x ≠ "" := by decide
  exact ⟨by decide, hmem, hall _ hmem⟩

/-- C5: when any required model artifact is missing or loading fails, the
startup selection (with the force-mock flag off) picks the Mock variant and
logs a non-empty cause; and selection is total — for every configuration it
yields a variant, so startup never hard-fails on an unavailable model. -/
theorem startup_fallback_selects_mock (a : ModelArtifacts)
    (h : a.checkpointPresent = false ∨ a.s3dPresent = false ∨
         a.bertPresent = false ∨ a.loadSucceeds = false) :
    ((selectProvider false a).1 = .mock ∧
      ∃ c, (selectProvider false a).2 = some c ∧ c ≠ "") ∧
    ∀ (f : Bool) (b : ModelArtifacts),
      (selectProvider f b).1 = .mock ∨ (selectProvider f b).1 = .real := by
  constructor
  · obtain ⟨c1, c2, c3, c4⟩ := a
    cases c1 <;> cases c2 <;> cases c3 <;> cases c4 <;>
      simp_all [selectProvider, loadFailureCause]
  · intro f b
    cases hX : (selectProvider f b).1
    · exact Or.inr rfl
    · exact Or.inl rfl

/-- Witness for C5: with the checkpoint artifact missing, startup selects
the Mock variant. -/
theorem startup_fallback_selects_mock_witness :
    (selectProvider false ⟨false, true, true, true⟩).1 = .mock :=
  (startup_fallback_selects_mock ⟨false, true, true, true⟩ (Or.inl rfl)).1.1

/-- C1: if the Caption Provider call fails for a validated upload request,
the Upload Pipeline deletes the file it stored during the request, creates
no database row, and surfaces the error: the final state equals the initial
state and the result is a caption-generation error. -/
theorem upload_caption_failure_cleanup (cfg : PipelineConfig) (st : ServerState)
    (inp : UploadInput) (fileId : Nat) (msg : String)
    (hval : validateUpload cfg inp = true) :
    uploadPipeline cfg st inp fileId (.error msg)
      = (st, .error .captionGenerationError) := by
  unfold uploadPipeline
  rw [if_pos hval]
  simp [List.erase_cons_head]

/-- Witness for C1 at a concrete request. -/
theorem upload_caption_failure_cleanup_witness :
    validateUpload ⟨["mp4"], 100⟩ ⟨1, 50, "mp4"⟩ = true ∧
    uploadPipeline ⟨["mp4"], 100⟩ ⟨[7], [⟨0, 1, 7, "a cat"⟩]⟩ ⟨1, 50, "mp4"⟩ 9
        (.error "inference failed")
      = (⟨[7], [⟨0, 1, 7, "a cat"⟩]⟩, .error .captionGenerationError) :=
  ⟨by decide, upload_caption_failure_cleanup _ _ _ 9 "inference failed" (by decide)⟩

/-- C4: deleting a record that does not exist, or that is owned by a
different user, fails with `NotFoundError` — the outcome is the very same
value in both causes, so ownership is not distinguishable from absence —
and the stored state is unchanged. -/
theorem delete_notfound_uniform (st : ServerState) (u vid : Nat)
    (h : ∀ r ∈ st.db, r.id = vid → r.userId ≠ u) :
    deleteVideo st u vid = (st, .error .notFoundError) := by
  unfold deleteVideo
  have hf : st.db.find? (fun r => r.id == vid && r.userId == u) = none := by
    rw [List.find?_eq_none]
    intro r hr hp
    rw [Bool.and_eq_true, beq_iff_eq, beq_iff_eq] at hp
    exact h r hr hp.1 hp.2
  rw [hf]

/-- Witness for C4: the same not-found outcome for an id owned by another
user and for a nonexistent id, with no state change. -/
theorem delete_notfound_uniform_witness :
    deleteVideo ⟨[7], [⟨0, 1, 7, "a cat"⟩]⟩ 2 0
      = (⟨[7], [⟨0, 1, 7, "a cat"⟩]⟩, .error .notFoundError) ∧
    deleteVideo ⟨[7], [⟨0, 1, 7, "a cat"⟩]⟩ 1 5
      = (⟨[7], [⟨0, 1, 7, "a cat"⟩]⟩, .error .notFoundError) :=
  ⟨delete_notfound_uniform _ 2 0 (by decide),
   delete_notfound_uniform _ 1 5 (by decide)⟩

/-- Helper: a validated upload with a failed Caption Provider call reduces to
the initial state plus a caption-generation error. -/
theorem uploadPipeline_error_eq (cfg : PipelineConfig) (st : ServerState)
    (inp : UploadInput) (fileId : Nat) (msg : String)
    (hval : validateUpload cfg inp = true) :
    uploadPipeline cfg st inp fileId (.error msg)
      = (st, .error .captionGenerationError) := by
  unfold uploadPipeline
  rw [if_pos hval]
  simp [List.erase_cons_head]

/-- Helper: a validated upload with an empty caption reduces to the initial
state plus a caption-generation error. -/
theorem uploadPipeline_empty_eq (cfg : PipelineConfig) (st : ServerState)
    (inp : UploadInput) (fileId : Nat)
    (hval : validateUpload cfg inp = true) :
    uploadPipeline cfg st inp fileId (.ok "")
      = (st, .error .captionGenerationError) := by
  unfold uploadPipeline
  rw [if_pos hval]
  simp [List.erase_cons_head]

/-- Helper: a validated upload with a non-empty caption stores the file and
prepends the new row. -/
theorem uploadPipeline_ok_eq (cfg : PipelineConfig) (st : ServerState)
    (inp : UploadInput) (fileId : Nat) (cap : String)
    (hval : validateUpload cfg inp = true) (hcap : cap ≠ "") :
    uploadPipeline cfg st inp fileId (.ok cap)
      = (⟨fileId :: st.storage, ⟨fileId, inp.userId, fileId, cap⟩ :: st.db⟩,
         .ok ⟨fileId, inp.userId, fileId, cap⟩) := by
  unfold uploadPipeline
  rw [if_pos hval]
  simp [hcap]

/-- Helper: an upload that fails validation leaves the state alone. -/
theorem uploadPipeline_invalid_eq (cfg : PipelineConfig) (st : ServerState)
    (inp : UploadInput) (fileId : Nat) (capRes : Except String String)
    (hval : validateUpload cfg inp = false) :
    uploadPipeline cfg st inp fileId capRes = (st, .error .validationError) := by
  unfold uploadPipeline
  rw [hval]
  simp

/-- C2: every persisted record has a non-empty caption: if all rows have a
non-empty caption, then after an upload (any outcome), a delete or a
clear-all, all rows still do; and an upload whose caption comes back empty
creates no row and fails the whole request. -/
theorem caption_nonempty_invariant (cfg : PipelineConfig) (st : ServerState)
    (inp : UploadInput) (fileId : Nat) (capRes : Except String String) (u vid : Nat)
    (hinv : ∀ r ∈ st.db, r.caption ≠ "") :
    (∀ r ∈ (uploadPipeline cfg st inp fileId capRes).1.db, r.caption ≠ "") ∧
    (capRes = .ok "" →
      (uploadPipeline cfg st inp fileId capRes).1.db = st.db ∧
      ∃ e, (uploadPipeline cfg st inp fileId capRes).2 = .error e) ∧
    (∀ r ∈ (deleteVideo st u vid).1.db, r.caption ≠ "") ∧
    (∀ r ∈ (clearAll st u).1.db, r.caption ≠ "") := by
  refine ⟨?_, ?_, ?_, ?_⟩
  · intro r hr
    by_cases hv : validateUpload cfg inp = true
    · cases capRes with
      | error m =>
        rw [uploadPipeline_error_eq cfg st inp fileId m hv] at hr
        exact hinv r hr
      | ok cap =>
        by_cases hc : cap = ""
        · subst hc
          rw [uploadPipeline_empty_eq cfg st inp fileId hv] at hr
          exact hinv r hr
        · rw [uploadPipeline_ok_eq cfg st inp fileId cap hv hc] at hr
          rcases List.mem_cons.mp hr with h | h
          · rw [h]; exact hc
          · exact hinv r h
    · rw [uploadPipeline_invalid_eq cfg st inp fileId capRes
        (by simpa using hv)] at hr
      exact hinv r hr
  · intro heq
    subst heq
    by_cases hv : validateUpload cfg inp = true
    · rw [uploadPipeline_empty_eq cfg st inp fileId hv]
      exact ⟨rfl, .captionGenerationError, rfl⟩
    · rw [uploadPipeline_invalid_eq cfg st inp fileId _ (by simpa using hv)]
      exact ⟨rfl, .validationError, rfl⟩
  · intro r hr
    unfold deleteVideo at hr
    split at hr
    · exact hinv r hr
    · exact hinv r (List.mem_of_mem_filter hr)
  · intro r hr
    exact hinv r (List.mem_of_mem_filter hr)

/-- Witness for C2: an upload whose caption comes back empty leaves the rows
exactly as they were. -/
theorem caption_nonempty_invariant_witness :
    (uploadPipeline ⟨["mp4"], 100⟩ ⟨[7], [⟨0, 1, 7, "a cat"⟩]⟩ ⟨1, 50, "mp4"⟩ 9
        (.ok "")).1.db = [⟨0, 1, 7, "a cat"⟩] :=
  ((caption_nonempty_invariant ⟨["mp4"], 100⟩ ⟨[7], [⟨0, 1, 7, "a cat"⟩]⟩
      ⟨1, 50, "mp4"⟩ 9 (.ok "") 0 0 (by decide)).2.1 rfl).1

/-- C7: on every response with HTTP status 401 the interceptor removes the
stored token and user from local storage; it redirects to the login page
exactly when the current path neither contains `/login` nor equals `/`; and
the rejected error carries the extracted message. -/
theorem interceptor_401_clears_and_redirects (s : LocalStorage)
    (pathname : String) (e : AxiosError) (h : is401 e = true) :
    (handleResponseError s pathname e).storage.token = none ∧
    (handleResponseError s pathname e).storage.user = none ∧
    (handleResponseError s pathname e).redirect =
      (if pathIncludesLogin pathname = true ∨ pathname = "/" then none
       else some "/") ∧
    (handleResponseError s pathname e).rejected.message = extractErrorMessage e := by
  refine ⟨?_, ?_, ?_, rfl⟩
  · show (if is401 e = true then removeAuthToken s else s).token = none
    rw [if_pos h]
    rfl
  · show (if is401 e = true then removeAuthToken s else s).user = none
    rw [if_pos h]
    rfl
  · show (if is401 e = true ∧ ¬ pathIncludesLogin pathname = true ∧ pathname ≠ "/"
        then some "/" else none) = _
    by_cases hp : pathIncludesLogin pathname = true <;>
      by_cases hq : pathname = "/" <;>
      simp [h, hp, hq]

/-- Witness for C7 at a concrete 401 response on the dashboard page. -/
theorem interceptor_401_clears_and_redirects_witness :
    is401 ⟨some ⟨401, ⟨some "Not authenticated", none, none⟩⟩, "Request failed"⟩
      = true ∧
    (handleResponseError ⟨some "tok", some "trinh"⟩ "/dashboard"
        ⟨some ⟨401, ⟨some "Not authenticated", none, none⟩⟩,
         "Request failed"⟩).storage.token = none :=
  ⟨by decide,
   (interceptor_401_clears_and_redirects ⟨some "tok", some "trinh"⟩ "/dashboard"
      ⟨some ⟨401, ⟨some "Not authenticated", none, none⟩⟩, "Request failed"⟩
      (by decide)).1⟩

/-- C10: every rejection of the response interceptor carries a non-empty
message: the response detail when present and non-empty, otherwise the
transport error message when non-empty, otherwise the fixed fallback
string. -/
theorem rejected_message_nonempty (s : LocalStorage) (pathname : String)
    (e : AxiosError) :
    (handleResponseError s pathname e).rejected.message ≠ "" ∧
    (handleResponseError s pathname e).rejected.message =
      (match e.response.bind (fun r => r.body.detail) with
       | some d =>
           if d = "" then
             (if e.message = "" then "An unexpected error occurred" else e.message)
           else d
       | none =>
           if e.message = "" then "An unexpected error occurred" else e.message) := by
  have hmsg : (handleResponseError s pathname e).rejected.message
      = extractErrorMessage e := rfl
  rw [hmsg]
  unfold extractErrorMessage jsOrString
  cases hd : e.response.bind (fun r => r.body.detail) with
  | none =>
    by_cases hm : e.message = "" <;> simp [hm]
  | some d =>
    by_cases hdd : d = "" <;> by_cases hm : e.message = "" <;>
      simp [hdd, hm]

/-- Helper: the extension scan finds nothing in a dot-free tail. -/
theorem matchExtTail_no_dot : ∀ (l : List Char) (k : Nat),
    '.' ∉ l → matchExtTail l k = none := by
  intro l
  induction l with
  | nil => intro k _; rfl
  | cons c t ih =>
    intro k h
    simp only [List.mem_cons, not_or] at h
    unfold matchExtTail
    by_cases hc : c = '/'
    · rw [if_pos hc]
    · rw [if_neg hc, if_neg (fun hcc => h.1 hcc.symm)]
      exact ih (k + 1) h.2

/-- Helper: the extension scan consumes a non-empty run of characters other
than `.` and `/` up to a dot and returns the remainder (also when the run is
empty but characters were already consumed). -/
theorem matchExtTail_match : ∀ (e r : List Char) (k : Nat),
    (∀ c ∈ e, c ≠ '.' ∧ c ≠ '/') → (e ≠ [] ∨ k ≠ 0) →
    matchExtTail (e ++ '.' :: r) k = some r := by
  intro e
  induction e with
  | nil =>
    intro r k _ hne
    rcases hne with h | h
    · exact absurd rfl h
    · show matchExtTail ('.' :: r) k = some r
      unfold matchExtTail
      rw [if_neg (by decide), if_pos rfl, if_neg h]
  | cons c t ih =>
    intro r k he hne
    have hc := he c (List.mem_cons_self c t)
    show matchExtTail (c :: (t ++ '.' :: r)) k = some r
    unfold matchExtTail
    rw [if_neg hc.2, if_neg hc.1]
    exact ih r (k + 1) (fun x hx => he x (List.mem_cons_of_mem c hx))
      (Or.inr (Nat.succ_ne_zero k))

/-- C8: the title the client sends with an upload is the original filename
with the trailing `.ext` segment stripped (for a non-empty final extension
containing neither `.` nor `/`), and a filename with no dot at all is sent
unchanged. -/
theorem upload_title_strips_extension :
    (∀ (base ext : String), ext ≠ "" →
        (∀ c ∈ ext.toList, c ≠ '.' ∧ c ≠ '/') →
        uploadTitle (base ++ "." ++ ext) = base) ∧
    (∀ name : String, '.' ∉ name.toList → uploadTitle name = name) := by
  constructor
  · intro base ext hne hchars
    unfold uploadTitle stripExtension
    have hdata : (base ++ "." ++ ext).toList = base.toList ++ '.' :: ext.toList := by
      show (base ++ "." ++ ext).data = base.data ++ '.' :: ext.data
      rw [String.data_append, String.data_append,
        show (".".data : List Char) = ['.'] from by decide]
      simp
    rw [hdata]
    have hrev : (base.toList ++ '.' :: ext.toList).reverse
        = ext.toList.reverse ++ '.' :: base.toList.reverse := by
      rw [List.reverse_append, List.reverse_cons]
      simp
    rw [hrev]
    have hext : ext.toList.reverse ≠ [] := by
      intro hnil
      apply hne
      have hl : ext.toList = [] := by
        have h2 := congrArg List.reverse hnil
        simpa using h2
      cases ext with
      | mk d =>
        have hd : d = [] := by simpa using hl
        subst hd
        decide
    rw [matchExtTail_match ext.toList.reverse base.toList.reverse 0
        (fun c hc => hchars c (List.mem_reverse.mp hc)) (Or.inl hext)]
    show String.mk base.toList.reverse.reverse = base
    rw [List.reverse_reverse]
    rfl
  · intro name h
    unfold uploadTitle stripExtension
    rw [matchExtTail_no_dot name.toList.reverse 0
        (fun hc => h (List.mem_reverse.mp hc))]

/-- Witness for C8 on a concrete filename with and without an extension. -/
theorem upload_title_strips_extension_witness :
    uploadTitle "holiday.mp4" = "holiday" ∧ uploadTitle "holiday" = "holiday" := by
  constructor
  · have h := upload_title_strips_extension.1 "holiday" "mp4" (by decide) (by decide)
    have heq : ("holiday" ++ "." ++ "mp4" : String) = "holiday.mp4" := by decide
    rwa [heq] at h
  · exact upload_title_strips_extension.2 "holiday" (by decide)

/-- C3: listing a user's history with page size `L > 0` echoes
`total = N` (the user's record count) on every page; a page beyond the last
(`ceil(N/L)`) is empty; the concatenation of pages `1..ceil(N/L)` is exactly
the user's records in stored newest-first order; in the client,
`clientTotalPages` is the ceiling of `total / 10`, and the Previous/Next
handlers keep the page between 1 and that count. -/
theorem history_pagination (db : List VideoRec) (u L : Nat) (hL : 0 < L) :
    (∀ page, (listHistory db u page L).2 = (userHistory db u).length) ∧
    (∀ page, ((userHistory db u).length + L - 1) / L < page →
        (listHistory db u page L).1 = []) ∧
    ((List.range (((userHistory db u).length + L - 1) / L)).map
        (fun i => (listHistory db u (i + 1) L).1)).flatten = userHistory db u ∧
    (∀ total, total ≤ clientTotalPages total * clientLimit ∧
        clientTotalPages total * clientLimit < total + clientLimit) ∧
    (∀ total p, 1 ≤ p → p ≤ clientTotalPages total →
        1 ≤ prevPage p ∧ prevPage p ≤ clientTotalPages total ∧
        1 ≤ nextPage (clientTotalPages total) p ∧
        nextPage (clientTotalPages total) p ≤ clientTotalPages total) := by
  refine ⟨fun _ => rfl, ?_, ?_, ?_, ?_⟩
  · intro page hpage
    show ((userHistory db u).drop ((page - 1) * L)).take L = []
    have h1 : (userHistory db u).length ≤ (page - 1) * L := by
      have h2 := le_ceil_mul (userHistory db u).length L hL
      have h3 : ((userHistory db u).length + L - 1) / L ≤ page - 1 := by omega
      calc (userHistory db u).length
          ≤ (((userHistory db u).length + L - 1) / L) * L := h2
        _ ≤ (page - 1) * L := Nat.mul_le_mul_right L h3
    rw [List.drop_eq_nil_of_le h1, List.take_nil]
  · exact flatten_chunks L (((userHistory db u).length + L - 1) / L)
      (userHistory db u) (le_ceil_mul _ L hL)
  · intro total
    unfold clientTotalPages clientLimit
    omega
  · intro total p h1 h2
    unfold prevPage nextPage
    omega

/-- Witness for C3 at a concrete three-record history with page size 2 and a
concrete client page state. -/
theorem history_pagination_witness :
    (listHistory [⟨2, 1, 12, "c2"⟩, ⟨1, 1, 11, "c1"⟩, ⟨0, 1, 10, "c0"⟩] 1 1 2).2
      = 3 ∧
    (listHistory [⟨2, 1, 12, "c2"⟩, ⟨1, 1, 11, "c1"⟩, ⟨0, 1, 10, "c0"⟩] 1 3 2).1
      = [] ∧
    (1 ≤ prevPage 3 ∧ prevPage 3 ≤ clientTotalPages 25 ∧
      1 ≤ nextPage (clientTotalPages 25) 3 ∧
      nextPage (clientTotalPages 25) 3 ≤ clientTotalPages 25) := by
  have H := history_pagination
    [⟨2, 1, 12, "c2"⟩, ⟨1, 1, 11, "c1"⟩, ⟨0, 1, 10, "c0"⟩] 1 2 (by decide)
  exact ⟨H.1 1, H.2.1 3 (by decide), H.2.2.2.2 25 3 (by decide) (by decide)⟩
